import Mathlib

/-!
Verification of the coidemo FHIR facade and disclosure store.

The definitions below are a shallow embedding of the TypeScript source:
`src/db.ts` (the `FHIRStore` document store, its `search` layer, and the
disclosure `DB`) and the HTTP handlers of the FHIR server module
(`POST /fhir/:type`, `PUT /fhir/:type/:id`, `GET /fhir/:type/:id`, and
`enforceQuestionnaireResponseInvariants`).

JSON values are modelled by an inductive type whose objects are ordered
association lists (mirroring JS object insertion order, which
`JSON.stringify` preserves); numbers are modelled as rationals (the
float64 idealization — none of the verified properties inspects
sub-ulp rounding).  The SQLite store is a list of `(id, json)` rows in
rowid order; SQL value comparison semantics (NULL propagation, the
numeric-before-text type ordering, and the default ASCII
case-insensitive `LIKE`) are embedded explicitly.
-/

/-- JSON values.  Objects are ordered association lists: parsed JS objects
never carry duplicate keys, and all operations below read and write the
first occurrence of a key, so the representation is faithful on every
value the program can construct. -/
inductive JSON where
  | null : JSON
  | bool : Bool → JSON
  | num : ℚ → JSON
  | str : String → JSON
  | arr : List JSON → JSON
  | obj : List (String × JSON) → JSON
  deriving Repr

namespace JSON

mutual

/-- Decidable equality, written by hand because `deriving` does not handle
the nested list occurrences. -/
def decEq : (a b : JSON) → Decidable (a = b)
  | .null, .null => isTrue rfl
  | .bool x, .bool y =>
      match decides : decide (x = y) with
      | true => isTrue (by rw [of_decide_eq_true decides])
      | false => isFalse (fun h => absurd (JSON.bool.inj h) (of_decide_eq_false decides))
  | .num x, .num y =>
      match decides : decide (x = y) with
      | true => isTrue (by rw [of_decide_eq_true decides])
      | false => isFalse (fun h => absurd (JSON.num.inj h) (of_decide_eq_false decides))
  | .str x, .str y =>
      match decides : decide (x = y) with
      | true => isTrue (by rw [of_decide_eq_true decides])
      | false => isFalse (fun h => absurd (JSON.str.inj h) (of_decide_eq_false decides))
  | .arr xs, .arr ys =>
      match decEqList xs ys with
      | isTrue h => isTrue (by rw [h])
      | isFalse h => isFalse (fun hh => absurd (JSON.arr.inj hh) h)
  | .obj xs, .obj ys =>
      match decEqFields xs ys with
      | isTrue h => isTrue (by rw [h])
      | isFalse h => isFalse (fun hh => absurd (JSON.obj.inj hh) h)
  | .null, .bool _ | .null, .num _ | .null, .str _ | .null, .arr _ | .null, .obj _
  | .bool _, .null | .bool _, .num _ | .bool _, .str _ | .bool _, .arr _ | .bool _, .obj _
  | .num _, .null | .num _, .bool _ | .num _, .str _ | .num _, .arr _ | .num _, .obj _
  | .str _, .null | .str _, .bool _ | .str _, .num _ | .str _, .arr _ | .str _, .obj _
  | .arr _, .null | .arr _, .bool _ | .arr _, .num _ | .arr _, .str _ | .arr _, .obj _
  | .obj _, .null | .obj _, .bool _ | .obj _, .num _ | .obj _, .str _ | .obj _, .arr _ =>
      isFalse (by intro h; exact JSON.noConfusion h)

def decEqList : (xs ys : List JSON) → Decidable (xs = ys)
  | [], [] => isTrue rfl
  | [], _ :: _ => isFalse (by intro h; exact List.noConfusion h)
  | _ :: _, [] => isFalse (by intro h; exact List.noConfusion h)
  | x :: xs, y :: ys =>
      match decEq x y with
      | isTrue h1 =>
          match decEqList xs ys with
          | isTrue h2 => isTrue (by rw [h1, h2])
          | isFalse h2 => isFalse (fun hh => absurd (List.cons.inj hh).2 h2)
      | isFalse h1 => isFalse (fun hh => absurd (List.cons.inj hh).1 h1)

def decEqFields : (xs ys : List (String × JSON)) → Decidable (xs = ys)
  | [], [] => isTrue rfl
  | [], _ :: _ => isFalse (by intro h; exact List.noConfusion h)
  | _ :: _, [] => isFalse (by intro h; exact List.noConfusion h)
  | (k, v) :: xs, (k', v') :: ys =>
      match decides : decide (k = k') with
      | false => isFalse (fun hh =>
          absurd (congrArg Prod.fst (List.cons.inj hh).1) (of_decide_eq_false decides))
      | true =>
          match decEq v v' with
          | isFalse h1 => isFalse (fun hh =>
              absurd (congrArg Prod.snd (List.cons.inj hh).1) h1)
          | isTrue h1 =>
              match decEqFields xs ys with
              | isTrue h2 => isTrue (by rw [of_decide_eq_true decides, h1, h2])
              | isFalse h2 => isFalse (fun hh => absurd (List.cons.inj hh).2 h2)

end

instance : DecidableEq JSON := decEq

/-- Read key `k` from an association list of object fields. -/
def getKey : List (String × JSON) → String → Option JSON
  | [], _ => none
  | (k', v) :: rest, k => if k' = k then some v else getKey rest k

/-- JS property assignment on an object field list: an existing key keeps
its position and is overwritten; a new key is appended at the end. -/
def setKey : List (String × JSON) → String → JSON → List (String × JSON)
  | [], k, v => [(k, v)]
  | (k', v') :: rest, k, v =>
      if k' = k then (k, v) :: rest else (k', v') :: setKey rest k v

/-- JS property read `v.k`.  Reading a named property of a parsed array or
of a primitive yields `undefined`, modelled as `none`. -/
def getProp : JSON → String → Option JSON
  | .obj fs, k => getKey fs k
  | _, _ => none

/-- JS property assignment `v.k = x` as it is observable through
`JSON.stringify`: on an object the field is set; on an array the named
property is dropped by serialization, so the value is unchanged (the
server code never reads back a named property it set on an array). -/
def setProp : JSON → String → JSON → JSON
  | .obj fs, k, x => .obj (setKey fs k x)
  | v, _, _ => v

/-- JS truthiness of a defined value. -/
def truthy : JSON → Bool
  | .null => false
  | .bool b => b
  | .num n => n ≠ 0
  | .str s => s ≠ ""
  | .arr _ => true
  | .obj _ => true

/-- JS truthiness of a possibly-undefined value. -/
def truthyOpt : Option JSON → Bool
  | none => false
  | some v => truthy v

/-- Navigation of an object path, as `json_extract` / chained JS property
access does; any missing or non-object step yields `none`. -/
def getPath : JSON → List String → Option JSON
  | v, [] => some v
  | v, k :: ks =>
      match getProp v k with
      | none => none
      | some w => getPath w ks

/-- `typeof v === 'object' && v !== null` for a defined JSON value:
true exactly on objects and arrays. -/
def isObjectType : JSON → Bool
  | .obj _ => true
  | .arr _ => true
  | _ => false

/-- JSON string escaping used when SQLite renders an extracted
array/object back to text. -/
def escapeChar (c : Char) : String :=
  if c = '"' then "\\\""
  else if c = '\\' then "\\\\"
  else if c = '\n' then "\\n"
  else if c = '\r' then "\\r"
  else if c = '\t' then "\\t"
  else String.singleton c

def escapeString (s : String) : String :=
  String.join (s.data.map escapeChar)

/-- Decimal rendering of a JSON number (the embedded values that reach
serialization are integers). -/
def numText (q : ℚ) : String :=
  if q.den = 1 then toString q.num else toString q.num ++ "/" ++ toString q.den

/-- Minified serialization, as `JSON.stringify` / SQLite's `json_extract`
render compound values. -/
def serialize : JSON → String
  | .null => "null"
  | .bool true => "true"
  | .bool false => "false"
  | .num n => numText n
  | .str s => "\"" ++ escapeString s ++ "\""
  | .arr xs =>
      "[" ++ String.intercalate "," (xs.attach.map (fun x => serialize x.1)) ++ "]"
  | .obj fs =>
      "\x7b" ++
        String.intercalate ","
          (fs.attach.map (fun f => "\"" ++ escapeString f.1.1 ++ "\":" ++ serialize f.1.2)) ++
      "\x7d"
decreasing_by
  · exact Nat.lt_trans (List.sizeOf_lt_of_mem x.2) (by simp)
  · calc sizeOf f.1.2 < sizeOf f.1 := by obtain ⟨⟨a, b⟩, _⟩ := f; simp
      _ < sizeOf fs := List.sizeOf_lt_of_mem f.2
      _ < sizeOf (JSON.obj fs) := by simp

end JSON

/-! ## JS `Number(string)` conversion

`clampCount`/`clampPage` call `Number(raw)` and guard with
`Number.isFinite`.  The conversion is modelled exactly over rationals
(`none` stands for `NaN` and `±Infinity`, the values `Number.isFinite`
rejects): optional surrounding whitespace, the empty string as `0`,
`Infinity` literals, hex/octal/binary literals, and decimal literals with
optional fraction and exponent; anything else is `NaN`. -/

def isJsSpace (c : Char) : Bool :=
  c = ' ' || c = '\t' || c = '\n' || c = '\r' ||
  c.toNat = 11 || c.toNat = 12 || c.toNat = 0xa0 || c.toNat = 0xfeff

def baseDigit (b : Nat) (c : Char) : Option Nat :=
  let v :=
    if '0' ≤ c ∧ c ≤ '9' then some (c.toNat - '0'.toNat)
    else if 'a' ≤ c ∧ c ≤ 'f' then some (c.toNat - 'a'.toNat + 10)
    else if 'A' ≤ c ∧ c ≤ 'F' then some (c.toNat - 'A'.toNat + 10)
    else none
  match v with
  | some d => if d < b then some d else none
  | none => none

def natOfDigits (b : Nat) (cs : List Char) : Option Nat :=
  cs.foldl
    (fun acc c =>
      match acc, baseDigit b c with
      | some n, some d => some (n * b + d)
      | _, _ => none)
    (some 0)

/-- Decimal literal body (after trimming): sign, integer digits, optional
fraction, optional exponent; trailing junk makes the whole conversion
`NaN`. -/
def jsDecimalCore (cs0 : List Char) : Option ℚ :=
  let (sign, cs) : ℚ × List Char :=
    match cs0 with
    | '+' :: rest => (1, rest)
    | '-' :: rest => (-1, rest)
    | _ => (1, cs0)
  let intDigits := cs.takeWhile Char.isDigit
  let cs1 := cs.dropWhile Char.isDigit
  let (fracDigits, cs2) : List Char × List Char :=
    match cs1 with
    | '.' :: rest => (rest.takeWhile Char.isDigit, rest.dropWhile Char.isDigit)
    | _ => ([], cs1)
  if intDigits.isEmpty ∧ fracDigits.isEmpty then none
  else
    match natOfDigits 10 intDigits, natOfDigits 10 fracDigits with
    | some ip, some fp =>
      let mantissa : ℚ := sign * ((ip : ℚ) + (fp : ℚ) / (10 : ℚ) ^ fracDigits.length)
      match cs2 with
      | [] => some mantissa
      | e :: rest =>
        if e = 'e' ∨ e = 'E' then
          let (esign, rest2) : ℤ × List Char :=
            match rest with
            | '+' :: r => (1, r)
            | '-' :: r => (-1, r)
            | _ => (1, rest)
          let expDigits := rest2.takeWhile Char.isDigit
          let rest3 := rest2.dropWhile Char.isDigit
          if expDigits.isEmpty ∨ ¬ rest3.isEmpty then none
          else
            match natOfDigits 10 expDigits with
            | some ev => some (mantissa * (10 : ℚ) ^ (esign * (ev : ℤ)))
            | none => none
        else none
    | _, _ => none

/-- `Number(s)` restricted to finite results (`Number.isFinite` guard):
`none` is `NaN` or `±Infinity`. -/
def jsNumber (s : String) : Option ℚ :=
  let cs := ((s.data.dropWhile isJsSpace).reverse.dropWhile isJsSpace).reverse
  if cs.isEmpty then some 0
  else if cs = "Infinity".data ∨ cs = "+Infinity".data ∨ cs = "-Infinity".data then none
  else
    match cs with
    | '0' :: x :: rest =>
      if x = 'x' ∨ x = 'X' then (natOfDigits 16 rest).bind (fun n => if rest.isEmpty then none else some (n : ℚ))
      else if x = 'o' ∨ x = 'O' then (natOfDigits 8 rest).bind (fun n => if rest.isEmpty then none else some (n : ℚ))
      else if x = 'b' ∨ x = 'B' then (natOfDigits 2 rest).bind (fun n => if rest.isEmpty then none else some (n : ℚ))
      else jsDecimalCore cs
    | _ => jsDecimalCore cs

/-! ## SQLite value semantics

Every query parameter is bound as TEXT.  `json_extract` yields SQL NULL
for a missing path or a JSON null, INTEGER/REAL for numbers and booleans,
and (minified) TEXT for strings, arrays and objects.  Comparisons against
a TEXT operand follow SQLite's type ordering (NULL propagates; every
numeric value sorts before every text value; text compares bytewise under
the BINARY collation, which on UTF-8 agrees with codepoint order).
`LIKE` converts its operands to TEXT and is ASCII-case-insensitive by
default. -/

inductive SqlV where
  | null : SqlV
  | num : ℚ → SqlV
  | text : String → SqlV
  deriving DecidableEq, Repr

def sqlOfExtract : Option JSON → SqlV
  | none => .null
  | some .null => .null
  | some (.bool b) => .num (if b then 1 else 0)
  | some (.num n) => .num n
  | some (.str s) => .text s
  | some (.arr xs) => .text (JSON.serialize (.arr xs))
  | some (.obj fs) => .text (JSON.serialize (.obj fs))

def sqlEqText : SqlV → String → Bool
  | .text t, s => t = s
  | _, _ => false

def sqlLtText : SqlV → String → Bool
  | .null, _ => false
  | .num _, _ => true
  | .text t, s => t < s

def sqlLeText : SqlV → String → Bool
  | .null, _ => false
  | .num _, _ => true
  | .text t, s => t ≤ s

def sqlGtText : SqlV → String → Bool
  | .null, _ => false
  | .num _, _ => false
  | .text t, s => s < t

def sqlGeText : SqlV → String → Bool
  | .null, _ => false
  | .num _, _ => false
  | .text t, s => s ≤ t

/-- SQLite's default `LIKE`: `%` matches any sequence, `_` any single
character, letters compare ASCII-case-insensitively. -/
def lowerAscii (c : Char) : Char :=
  if 'A' ≤ c ∧ c ≤ 'Z' then Char.ofNat (c.toNat + 32) else c

def likeChars : List Char → List Char → Bool
  | [], s => s.isEmpty
  | c :: p, s =>
      if c = '%' then
        (List.range (s.length + 1)).any (fun k => likeChars p (s.drop k))
      else if c = '_' then
        (match s with
         | [] => false
         | _ :: s' => likeChars p s')
      else
        (match s with
         | [] => false
         | c' :: s' => lowerAscii c = lowerAscii c' && likeChars p s')

def likeMatch (pattern s : String) : Bool :=
  likeChars pattern.data s.data

def sqlLikeText : SqlV → String → Bool
  | .null, _ => false
  | .num n, pattern => likeMatch pattern (JSON.numText n)
  | .text t, pattern => likeMatch pattern t

/-! ## The FHIR document store (`FHIRStore` in `src/db.ts`)

The `resources` table is a list of `(id, json)` rows in rowid
(insertion) order; `UPDATE` keeps a row's position.  Random id
generation and `new Date()` are nondeterministic inputs and appear as
explicit arguments. -/

abbrev FhirState := List (String × JSON)

/-- Query parameters in request order (`URLSearchParams`). -/
abbrev Params := List (String × String)

/-- `URLSearchParams.get`: the first value for the name, or null. -/
def pGet (ps : Params) (k : String) : Option String :=
  (ps.find? (fun kv => kv.1 = k)).map Prod.snd

/-- `URLSearchParams.getAll`: every value for the name, in order. -/
def pGetAll (ps : Params) (k : String) : List String :=
  (ps.filter (fun kv => kv.1 = k)).map Prod.snd

namespace FHIRStore

/-- `SELECT json FROM resources WHERE id = ?` (id is the primary key). -/
def lookupId : FhirState → String → Option JSON
  | [], _ => none
  | (i, r) :: rest, k => if i = k then some r else lookupId rest k

/-- `SELECT 1 FROM resources WHERE id = ?` as a Boolean. -/
def existsId (st : FhirState) (i : String) : Bool :=
  st.any (fun r => r.1 = i)

/-- JS `String(v)` on a parsed JSON value (`create` applies it to a truthy
client-supplied `id`). -/
def jsToString : JSON → String
  | .null => "null"
  | .bool true => "true"
  | .bool false => "false"
  | .num n => JSON.numText n
  | .str s => s
  | .obj _ => "[object Object]"
  | .arr xs =>
      String.intercalate ","
        (xs.attach.map (fun x => if x.1 = .null then "" else jsToString x.1))
decreasing_by
  exact Nat.lt_trans (List.sizeOf_lt_of_mem x.2) (by simp)

/-- `const id = (resource.id && String(resource.id)) || this.generateId()`. -/
def createId (resource : JSON) (genId : String) : String :=
  match JSON.getProp resource "id" with
  | some v => if JSON.truthy v then jsToString v else genId
  | none => genId

/-- `create`: `{ ...resource, id }` then `INSERT`.  A primary-key collision
makes the `INSERT` throw, modelled as `none`.  (The spread is modelled for
object resources; every caller passes one: the HTTP handler has already
checked `resourceType`, and the seed resource is a literal object.) -/
def create (st : FhirState) (resource : JSON) (genId : String) :
    Option (FhirState × JSON) :=
  let i := createId resource genId
  let payload := JSON.setProp resource "id" (.str i)
  if existsId st i then none
  else some (st ++ [(i, payload)], payload)

/-- `replace`: `{ ...resource, resourceType, id }`, then `UPDATE` if a row
with that id exists (any resource type), else `INSERT`.  Returns the new
state, the stored payload, and the `created` flag. -/
def replace (st : FhirState) (resourceType : String) (i : String)
    (resource : JSON) : FhirState × JSON × Bool :=
  let payload :=
    JSON.setProp (JSON.setProp resource "resourceType" (.str resourceType)) "id" (.str i)
  if existsId st i then
    (st.map (fun r => if r.1 = i then (r.1, payload) else r), payload, false)
  else
    (st ++ [(i, payload)], payload, true)

/-- `get`: fetch by id, then `if (parsed.resourceType !== resourceType)
return null`. -/
def get (st : FhirState) (resourceType : String) (i : String) : Option JSON :=
  match lookupId st i with
  | none => none
  | some parsed =>
      match JSON.getProp parsed "resourceType" with
      | some (.str t) => if t = resourceType then some parsed else none
      | _ => none

/-- `clampCount`: `raw ? Number(raw) : NaN`, default 50 when not finite,
else `Math.min(Math.max(1, Math.floor(parsed)), 200)`. -/
def clampCount (raw : Option String) : Int :=
  let parsed : Option ℚ :=
    match raw with
    | some s => if s = "" then none else jsNumber s
    | none => none
  match parsed with
  | none => 50
  | some x => min (max 1 ⌊x⌋) 200

/-- `clampPage`: default 1 when not finite or below 1, else
`Math.floor(parsed)`. -/
def clampPage (raw : Option String) : Int :=
  let parsed : Option ℚ :=
    match raw with
    | some s => if s = "" then none else jsNumber s
    | none => none
  match parsed with
  | none => 1
  | some x => if x < 1 then 1 else ⌊x⌋

/-- `parseDatePrefix` (renamed: `Prefix` is unavailable here): maps a
FHIR-style `ge/gt/le/lt` date qualifier on the first two characters to a
SQL comparison operator, defaulting to equality. -/
def parseDateOp (raw : String) : String × String :=
  let p := raw.take 2
  if p = "ge" then (">=", raw.drop 2)
  else if p = "gt" then (">", raw.drop 2)
  else if p = "le" then ("<=", raw.drop 2)
  else if p = "lt" then ("<", raw.drop 2)
  else ("=", raw)

def applyOp (op : String) (v : SqlV) (s : String) : Bool :=
  if op = ">=" then sqlGeText v s
  else if op = ">" then sqlGtText v s
  else if op = "<=" then sqlLeText v s
  else if op = "<" then sqlLtText v s
  else sqlEqText v s

/-- The query parameters `search` reads, extracted exactly where the
source reads them: `status`, `_count`, `_page` unconditionally, the rest
inside the per-resource-type branches. -/
structure SearchQuery where
  status : Option String
  url : Option String
  version : Option String
  idFilter : Option String
  subjectIds : List String
  questionnaire : Option String
  authored : List String
  count : Option String
  page : Option String
  deriving DecidableEq, Repr

def searchKeys (resourceType : String) (params : Params) : SearchQuery :=
  { status := pGet params "status"
    url := if resourceType = "Questionnaire" then pGet params "url" else none
    version := if resourceType = "Questionnaire" then pGet params "version" else none
    idFilter := if resourceType = "Questionnaire" then pGet params "_id" else none
    subjectIds :=
      if resourceType = "QuestionnaireResponse" then pGetAll params "subject:identifier" else []
    questionnaire :=
      if resourceType = "QuestionnaireResponse" then pGet params "questionnaire" else none
    authored :=
      if resourceType = "QuestionnaireResponse" then pGetAll params "authored" else []
    count := pGet params "_count"
    page := pGet params "_page" }

/-- `json_extract(json, '$.path...')` of a row's document. -/
def extract (r : JSON) (path : List String) : SqlV :=
  sqlOfExtract (JSON.getPath r path)

/-- A filter guarded by `if (param)`: absent or empty parameters add no
clause. -/
def optClause (o : Option String) (f : String → Bool) : Bool :=
  match o with
  | some s => if s = "" then true else f s
  | none => true

/-- One `subject:identifier` value: `system|value` pairs match on both
fields, a bare value (no `|`) matches on the value only; an empty system
(`|value`) falls back to the value-only clause, an empty value becomes
`''`. -/
def subjectIdClause (r : JSON) (raw : String) : Bool :=
  match raw.splitOn "|" with
  | [] => false
  | [_] => sqlEqText (extract r ["subject", "identifier", "value"]) raw
  | p0 :: rest =>
      let value := String.intercalate "|" rest
      if p0 ≠ "" then
        sqlEqText (extract r ["subject", "identifier", "system"]) p0 &&
          sqlEqText (extract r ["subject", "identifier", "value"]) value
      else
        sqlEqText (extract r ["subject", "identifier", "value"]) value

/-- Repeated `subject:identifier` parameters OR together; blank values are
skipped, and no non-blank value means no clause. -/
def subjectClause (r : JSON) (raws : List String) : Bool :=
  let cs := raws.filter (fun raw => raw ≠ "")
  if cs.isEmpty then true else cs.any (subjectIdClause r)

/-- JS `String.prototype.includes` with a single-character needle. -/
def jsIncludes (s : String) (c : Char) : Bool :=
  s.data.contains c

/-- The `questionnaire` filter: exact when the value is versioned
(contains `|`), else exact-or-`LIKE value || '|%'`. -/
def questionnaireClause (r : JSON) (q : String) : Bool :=
  if jsIncludes q '|' then
    sqlEqText (extract r ["questionnaire"]) q
  else
    sqlEqText (extract r ["questionnaire"]) q ||
      sqlLikeText (extract r ["questionnaire"]) (q ++ "|%")

def authoredClause (r : JSON) (raw : String) : Bool :=
  let (op, v) := parseDateOp raw
  applyOp op (extract r ["authored"]) v

/-- The conjunction of all `WHERE` clauses `search` builds. -/
def rowMatches (resourceType : String) (q : SearchQuery) (row : String × JSON) : Bool :=
  sqlEqText (extract row.2 ["resourceType"]) resourceType &&
  optClause q.status (fun s => sqlEqText (extract row.2 ["status"]) s) &&
  optClause q.url (fun s => sqlEqText (extract row.2 ["url"]) s) &&
  optClause q.version (fun s => sqlEqText (extract row.2 ["version"]) s) &&
  optClause q.idFilter (fun s => decide (row.1 = s)) &&
  subjectClause row.2 q.subjectIds &&
  optClause q.questionnaire (questionnaireClause row.2) &&
  (q.authored.filter (fun raw => raw ≠ "")).all (authoredClause row.2)

structure FHIRSearchResult where
  resources : List JSON
  total : Nat
  limit : Int
  page : Int
  deriving DecidableEq, Repr

/-- `search`: filter, count, and paginate with `LIMIT ? OFFSET ?` where
`offset = (page - 1) * limit`. -/
def search (resourceType : String) (st : FhirState) (params : Params) :
    FHIRSearchResult :=
  let q := searchKeys resourceType params
  let limit := clampCount q.count
  let page := clampPage q.page
  let offset := (page - 1) * limit
  let matched := st.filter (rowMatches resourceType q)
  { resources := ((matched.drop offset.toNat).take limit.toNat).map Prod.snd
    total := matched.length
    limit := limit
    page := page }

end FHIRStore

/-! ## HTTP handlers of the FHIR server module

Requests are modelled after authentication succeeded (`verifyAuthorization`
is the external auth collaborator; an authenticated caller is a value of
`AuthToken`).  The request body is the value `safeJson` produced: a parse
failure yields JS `null`, which takes the same `Invalid body` path as a
literal JSON null, so both are `JSON.null` here. -/

structure AuthToken where
  subjectSystem : String
  subjectValue : String
  display : Option String
  deriving DecidableEq, Repr

structure Resp where
  status : Nat
  body : Option JSON
  deriving DecidableEq, Repr

def allowedResourceTypes : List String := ["Questionnaire", "QuestionnaireResponse"]

/-- `body.resourceType !== type` (strict string comparison). -/
def resourceTypeMatches (body : JSON) (t : String) : Bool :=
  match JSON.getProp body "resourceType" with
  | some (.str s) => s = t
  | _ => false

/-- `enforceQuestionnaireResponseInvariants`: normalizes `subject` to an
object when it is missing or not `typeof 'object'`, pins
`subject.identifier.system/value` to the caller, fills `subject.display`,
and then requires truthy `questionnaire` and `status`.  The JS code
mutates the resource in place; the returned value is the resource as it
is observable afterwards (note `JSON.setProp` on an array drops the
assignment, exactly as `JSON.stringify` does for named array
properties, which the code never reads back). -/
def enforceQuestionnaireResponseInvariants (resource0 : JSON) (auth : AuthToken) :
    JSON × Option String :=
  let resource :=
    match JSON.getProp resource0 "subject" with
    | some v => if v.isObjectType then resource0 else JSON.setProp resource0 "subject" (.obj [])
    | none => JSON.setProp resource0 "subject" (.obj [])
  let subject := (JSON.getProp resource "subject").getD (.obj [])
  let identifier :=
    match JSON.getProp subject "identifier" with
    | some v => if v.isObjectType then v else .obj []
    | none => .obj []
  let identifier :=
    JSON.setProp (JSON.setProp identifier "system" (.str auth.subjectSystem))
      "value" (.str auth.subjectValue)
  let subject := JSON.setProp subject "identifier" identifier
  let subject :=
    match auth.display with
    | some d =>
        if ¬ JSON.truthyOpt (JSON.getProp subject "display") ∧ d ≠ "" then
          JSON.setProp subject "display" (.str d)
        else subject
    | none => subject
  let resource := JSON.setProp resource "subject" subject
  (resource,
    if ¬ JSON.truthyOpt (JSON.getProp resource "questionnaire") then
      some "QuestionnaireResponse.questionnaire is required"
    else if ¬ JSON.truthyOpt (JSON.getProp resource "status") then
      some "QuestionnaireResponse.status is required"
    else none)

/-- `POST /fhir/:type` after authentication: 404 for a type outside the
allowlist, 400 for a non-object body, a `resourceType` mismatch, or a
failed QuestionnaireResponse invariant; otherwise `store.create` and 201
with the created resource (500 if the insert throws on an id collision). -/
def postFhir (auth : AuthToken) (st : FhirState) (t : String) (body : JSON)
    (genId : String) : FhirState × Resp :=
  if ¬ allowedResourceTypes.contains t then (st, ⟨404, none⟩)
  else if ¬ body.isObjectType then (st, ⟨400, none⟩)
  else if ¬ resourceTypeMatches body t then (st, ⟨400, none⟩)
  else
    let checked :=
      if t = "QuestionnaireResponse" then enforceQuestionnaireResponseInvariants body auth
      else (body, none)
    match checked.2 with
    | some _ => (st, ⟨400, none⟩)
    | none =>
        match FHIRStore.create st checked.1 genId with
        | none => (st, ⟨500, none⟩)
        | some (st', created) => (st', ⟨201, some created⟩)

/-- `PUT /fhir/:type/:id` after authentication: the same validation as
`POST`, then `store.replace` — 201 with the payload when the id was
absent, 200 when it overwrote. -/
def putFhir (auth : AuthToken) (st : FhirState) (t i : String) (body : JSON) :
    FhirState × Resp :=
  if ¬ allowedResourceTypes.contains t then (st, ⟨404, none⟩)
  else if ¬ body.isObjectType then (st, ⟨400, none⟩)
  else if ¬ resourceTypeMatches body t then (st, ⟨400, none⟩)
  else
    let checked :=
      if t = "QuestionnaireResponse" then enforceQuestionnaireResponseInvariants body auth
      else (body, none)
    match checked.2 with
    | some _ => (st, ⟨400, none⟩)
    | none =>
        let result := FHIRStore.replace st t i checked.1
        if result.2.2 then (result.1, ⟨201, some result.2.1⟩)
        else (result.1, ⟨200, some result.2.1⟩)

/-- `GET /fhir/:type/:id` after authentication. -/
def getFhir (st : FhirState) (t i : String) : Resp :=
  if ¬ allowedResourceTypes.contains t then ⟨404, none⟩
  else
    match FHIRStore.get st t i with
    | none => ⟨404, none⟩
    | some r => ⟨200, some r⟩

/-! ## The disclosure store (`DB` in the portal variant of `src/db.ts`)

Documents and records mirror `disclosure_types.ts`.  The `disclosures`
table is a list of records; timestamps are the ISO strings the code
stores, and `randomUUID`/`new Date()` appear as explicit arguments. -/

inductive EntityType where
  | for_profit | nonprofit | government | university | public | priv | llc | other
  deriving DecidableEq, Repr

structure ParticipantInfo where
  name : String
  email : String
  hl7Roles : List String
  consentPublic : Bool
  deriving DecidableEq, Repr

structure RoleDisclosure where
  entityName : String
  entityType : EntityType
  role : String
  paid : Bool
  primaryEmployer : Bool
  aboveThreshold : Option Bool
  deriving DecidableEq, Repr

structure FinancialDisclosure where
  fundingSource : String
  entityType : EntityType
  passThrough : Bool
  intermediary : String
  deriving DecidableEq, Repr

inductive OwnershipTier where
  | oneToFive | aboveFive
  deriving DecidableEq, Repr

structure OwnershipDisclosure where
  entityName : String
  entityType : EntityType
  tier : OwnershipTier
  deriving DecidableEq, Repr

structure GiftDisclosure where
  sponsor : String
  entityType : EntityType
  deriving DecidableEq, Repr

structure DisclosureDocument where
  recordYear : Int
  participant : ParticipantInfo
  roles : List RoleDisclosure
  financial : List FinancialDisclosure
  ownerships : List OwnershipDisclosure
  gifts : List GiftDisclosure
  certificationChecked : Bool
  deriving DecidableEq, Repr

structure DisclosureDraft where
  savedAt : String
  document : DisclosureDocument
  deriving DecidableEq, Repr

structure DisclosureSnapshot where
  id : String
  submittedAt : String
  document : DisclosureDocument
  deriving DecidableEq, Repr

structure DisclosureRecord where
  id : Nat
  user_id : Nat
  draft : Option DisclosureDraft
  history : List DisclosureSnapshot
  last_submitted_at : Option String
  created_at : String
  updated_at : String
  deriving DecidableEq, Repr

abbrev DiscState := List DisclosureRecord

namespace DB

/-- `SELECT * FROM disclosures WHERE id = ?` (id is the primary key). -/
def getDisclosure (st : DiscState) (i : Nat) : Option DisclosureRecord :=
  st.find? (fun r => r.id = i)

/-- `UPDATE disclosures SET ... WHERE id=?` touches every row with that
id (the primary key makes it unique in practice). -/
def updateWhere (st : DiscState) (i : Nat)
    (g : DisclosureRecord → DisclosureRecord) : DiscState :=
  st.map (fun r => if r.id = i then g r else r)

/-- `saveDraft(disclosure_id, document, savedAt?)`: overwrite the draft
and its saved timestamp (also `updated_at`), then re-read the record.
`now` is what `nowISO()` would return. -/
def saveDraft (st : DiscState) (i : Nat) (document : DisclosureDocument)
    (savedAt : Option String) (now : String) :
    DiscState × Option DisclosureRecord :=
  let timestamp := savedAt.getD now
  let st' := updateWhere st i (fun r =>
    { r with draft := some ⟨timestamp, document⟩, updated_at := timestamp })
  (st', getDisclosure st' i)

/-- `submitDraft(disclosure_id, submittedAt?)`: a missing record or a
record without a draft is returned as-is with no write; otherwise a
snapshot `{id: randomId, submittedAt, document: draft.document}` is
appended to history and `last_submitted_at`/`updated_at` are set.
`snapId` is what `randomId()` would return. -/
def submitDraft (st : DiscState) (i : Nat) (submittedAt : Option String)
    (now : String) (snapId : String) :
    DiscState × Option DisclosureRecord :=
  match getDisclosure st i with
  | none => (st, none)
  | some record =>
      match record.draft with
      | none => (st, some record)
      | some draft =>
          let ts := submittedAt.getD now
          let snapshot : DisclosureSnapshot := ⟨snapId, ts, draft.document⟩
          let history := record.history ++ [snapshot]
          let st' := updateWhere st i (fun r =>
            { r with history := history, last_submitted_at := some ts, updated_at := ts })
          (st', getDisclosure st' i)

end DB

/-- `hasAnyEntry`: the draft document carries at least one disclosure
entry. -/
def hasAnyEntry (document : DisclosureDocument) : Bool :=
  document.roles.length > 0 ||
  document.financial.length > 0 ||
  document.ownerships.length > 0 ||
  document.gifts.length > 0

/-- The row data `listUsersWithStatus` reads for one user (the left join
may leave every disclosure column NULL). -/
structure StatusRow where
  draftDoc : Option DisclosureDocument
  draftSavedAt : Option String
  history : List DisclosureSnapshot
  lastSubmitted : Option String
  deriving DecidableEq, Repr

/-- JS truthiness of a nullable string column (null and `''` are falsy). -/
def truthyStr : Option String → Bool
  | none => false
  | some s => s ≠ ""

/-- The status computation inside `listUsersWithStatus`, with the
`new Date(a) > new Date(b)` comparison abstracted as `dateGt`. -/
def deriveStatus (dateGt : String → String → Bool) (row : StatusRow) : String :=
  let status := "Not Started"
  let status :=
    if row.history.isEmpty &&
        (match row.draftDoc with
         | some d => hasAnyEntry d
         | none => false) then "Draft" else status
  let status := if !row.history.isEmpty then "Submitted" else status
  let status :=
    if !row.history.isEmpty && row.draftDoc.isSome && truthyStr row.draftSavedAt &&
        (!truthyStr row.lastSubmitted ||
          dateGt (row.draftSavedAt.getD "") (row.lastSubmitted.getD "")) then
      "Updated"
    else status
  status

/-! ## Basic lemmas about the embedding -/

namespace JSON

theorem getKey_setKey_self (fs : List (String × JSON)) (k : String) (v : JSON) :
    getKey (setKey fs k v) k = some v := by
  induction fs with
  | nil => simp [setKey, getKey]
  | cons f rest ih =>
      obtain ⟨k', v'⟩ := f
      by_cases h : k' = k
      · simp [setKey, getKey, h]
      · simp [setKey, getKey, h, ih]

theorem getKey_setKey_ne (fs : List (String × JSON)) (k k' : String) (v : JSON)
    (h : k ≠ k') : getKey (setKey fs k v) k' = getKey fs k' := by
  induction fs with
  | nil => simp [setKey, getKey, h]
  | cons f rest ih =>
      obtain ⟨k₀, v₀⟩ := f
      by_cases h0 : k₀ = k
      · simp [setKey, getKey, h0, h]
      · simp [setKey, getKey, h0, ih]

end JSON

namespace FHIRStore

theorem lookupId_append_of_not_exists (st : FhirState) (i : String) (p : JSON)
    (h : existsId st i = false) : lookupId (st ++ [(i, p)]) i = some p := by
  induction st with
  | nil => simp [lookupId]
  | cons r rest ih =>
      simp only [existsId, List.any_cons, Bool.or_eq_false_iff] at h
      have h1 : r.1 ≠ i := by simpa using h.1
      simpa [lookupId, h1] using ih (by simp [existsId, h.2])

theorem lookupId_overwrite (st : FhirState) (i : String) (p : JSON)
    (h : existsId st i = true) :
    lookupId (st.map (fun r => if r.1 = i then (r.1, p) else r)) i = some p := by
  induction st with
  | nil => simp [existsId] at h
  | cons r rest ih =>
      obtain ⟨j, x⟩ := r
      by_cases h1 : j = i
      · subst h1
        show lookupId ((if (j = j) then ((j : String), p) else (j, x)) :: _) j = some p
        rw [if_pos rfl]
        show (if (j = j) then some p else _) = some p
        rw [if_pos rfl]
      · have h2 : existsId rest i = true := by
          simp only [existsId, List.any_cons, Bool.or_eq_true] at h
          rcases h with h | h
          · exact absurd (by simpa using h) h1
          · simpa [existsId] using h
        simp only [List.map_cons]
        rw [if_neg h1]
        simpa [lookupId, h1] using ih h2

end FHIRStore

/-! ## Concrete requests used as evidence -/

def cAuth : AuthToken := ⟨"https://login.example#sub", "alice", some "Alice"⟩

/-- A QuestionnaireResponse whose client-supplied `subject.identifier` is
an array.  `typeof [] === 'object'`, so the invariant enforcement keeps
it and sets `system`/`value` as named properties of the array, which
`JSON.stringify` silently drops. -/
def c1Body : JSON := .obj [
  ("resourceType", .str "QuestionnaireResponse"),
  ("subject", .obj [("identifier", .arr [])]),
  ("questionnaire", .str "https://example.org/q"),
  ("status", .str "completed")]

/-- A valid Questionnaire body carrying no `id` member. -/
def c2Body : JSON := .obj [("resourceType", .str "Questionnaire")]

/-- What `GET` returns after `PUT /fhir/Questionnaire/q1` of `c2Body`. -/
def c2Stored : JSON := .obj [("resourceType", .str "Questionnaire"), ("id", .str "q1")]

/-- A QuestionnaireResponse body with matching `resourceType` but no
`questionnaire` element. -/
def c3Body : JSON := .obj [("resourceType", .str "QuestionnaireResponse")]

/-- Claim C1, evidence of the code bug: `POST /fhir/QuestionnaireResponse`
by authenticated caller `cAuth` with body `c1Body` persists the resource
(201), yet the stored resource has no `subject.identifier.system` and no
`subject.identifier.value` at all — the client-supplied array survived
and the caller's identity was dropped, contradicting the invariant that
`subject.identifier` is always overwritten with the caller's identity. -/
theorem post_array_identifier_stored_without_subject :
    (postFhir cAuth [] "QuestionnaireResponse" c1Body "gen1").2.status = 201 ∧
    ((FHIRStore.lookupId (postFhir cAuth [] "QuestionnaireResponse" c1Body "gen1").1
        "gen1").bind (fun r => JSON.getPath r ["subject", "identifier", "system"])) = none ∧
    ((FHIRStore.lookupId (postFhir cAuth [] "QuestionnaireResponse" c1Body "gen1").1
        "gen1").bind (fun r => JSON.getPath r ["subject", "identifier", "value"])) = none :=
  ⟨rfl, rfl, rfl⟩

/-- Claim C2, counterexample: the body `c2Body` is accepted by
`PUT /fhir/Questionnaire/q1` (201), but the immediately following `GET`
returns `c2Stored` — the body with `id` forced from the path — whose
serialization differs from the serialization of the body that was PUT,
so the round-trip is not byte-equivalent. -/
theorem put_get_roundtrip_fails_when_id_absent :
    (putFhir cAuth [] "Questionnaire" "q1" c2Body).2.status = 201 ∧
    getFhir (putFhir cAuth [] "Questionnaire" "q1" c2Body).1 "Questionnaire" "q1" =
      ⟨200, some c2Stored⟩ ∧
    c2Stored ≠ c2Body ∧
    JSON.serialize c2Stored ≠ JSON.serialize c2Body := by
  refine ⟨rfl, rfl, fun h => ?_, fun h => ?_⟩
  · exact List.noConfusion ((List.cons.inj (JSON.obj.inj h)).2)
  · have h1 : JSON.serialize c2Stored =
        "\x7b\"resourceType\":\"Questionnaire\",\"id\":\"q1\"\x7d" := by
      simp [c2Stored, JSON.serialize, JSON.escapeString, JSON.escapeChar]
      rfl
    have h2 : JSON.serialize c2Body = "\x7b\"resourceType\":\"Questionnaire\"\x7d" := by
      simp [c2Body, JSON.serialize, JSON.escapeString, JSON.escapeChar]
      rfl
    rw [h1, h2] at h
    exact absurd h (by decide)

/-- Claim C3, counterexample: for the allowed type `QuestionnaireResponse`
and id `r1`, the body `c3Body` has the matching `resourceType` and no
resource with id `r1` is present, yet the `PUT` returns 400 (the response
invariants reject the missing `questionnaire`) and creates nothing —
where the claim requires creation with a 201-equivalent signal. -/
theorem put_qr_missing_questionnaire_rejected :
    "QuestionnaireResponse" ∈ allowedResourceTypes ∧
    resourceTypeMatches c3Body "QuestionnaireResponse" = true ∧
    FHIRStore.existsId [] "r1" = false ∧
    (putFhir cAuth [] "QuestionnaireResponse" "r1" c3Body).2.status = 400 ∧
    (putFhir cAuth [] "QuestionnaireResponse" "r1" c3Body).1 = [] :=
  ⟨by simp [allowedResourceTypes], rfl, rfl, rfl, rfl⟩

/-! ## Disclosure-store claims -/

theorem getDisclosure_updateWhere (st : DiscState) (i : Nat)
    (g : DisclosureRecord → DisclosureRecord) (hg : ∀ r, (g r).id = r.id) :
    DB.getDisclosure (DB.updateWhere st i g) i = (DB.getDisclosure st i).map g := by
  induction st with
  | nil => rfl
  | cons r rest ih =>
      by_cases h : r.id = i
      · simp only [DB.updateWhere, DB.getDisclosure, List.map_cons] at *
        rw [if_pos h]
        rw [List.find?_cons_of_pos _ (by simp [hg, h]),
          List.find?_cons_of_pos _ (by simp [h])]
        rfl
      · simp only [DB.updateWhere, DB.getDisclosure, List.map_cons] at *
        rw [if_neg h]
        rw [List.find?_cons_of_neg _ (by simp [h]), List.find?_cons_of_neg _ (by simp [h])]
        exact ih

/-- Claim C7: `submitDraft` on an existing record with no draft returns
the record unchanged, writes nothing to the store, and raises no error
(the model is total: the call yields a value on this input). -/
theorem submitDraft_no_draft_noop (st : DiscState) (i : Nat) (sAt : Option String)
    (now snapId : String) (r : DisclosureRecord)
    (hr : DB.getDisclosure st i = some r) (hd : r.draft = none) :
    DB.submitDraft st i sAt now snapId = (st, some r) := by
  simp only [DB.submitDraft, hr, hd]

def wDoc : DisclosureDocument :=
  ⟨2025, ⟨"Alice", "alice@example.org", ["TSC"], true⟩, [], [], [], [], false⟩

def wDocEntries : DisclosureDocument :=
  { wDoc with roles := [⟨"Acme", .for_profit, "CTO", true, true, some true⟩] }

def wRecNoDraft : DisclosureRecord := ⟨1, 7, none, [], none, "2025-01-01", "2025-01-01"⟩

def wDraft : DisclosureDraft := ⟨"2025-01-02", wDoc⟩

def wRecDraft : DisclosureRecord := ⟨2, 8, some wDraft, [], none, "2025-01-01", "2025-01-02"⟩

theorem submitDraft_no_draft_noop_witness :
    DB.getDisclosure [wRecNoDraft] 1 = some wRecNoDraft ∧
    wRecNoDraft.draft = none ∧
    DB.submitDraft [wRecNoDraft] 1 none "2025-02-01" "snap1" = ([wRecNoDraft], some wRecNoDraft) :=
  ⟨rfl, rfl, submitDraft_no_draft_noop [wRecNoDraft] 1 none "2025-02-01" "snap1" wRecNoDraft rfl rfl⟩

/-- Claim C10: on a record with a draft, `submitDraft` changes only the
`history`, `last_submitted_at` and `updated_at` fields of the stored
record — the draft document and its saved timestamp are retained, and
`id`, `user_id`, `created_at` are untouched, both in the store and in
the returned record. -/
theorem submitDraft_preserves_draft_frame (st : DiscState) (i : Nat)
    (sAt : Option String) (now snapId : String) (r : DisclosureRecord)
    (dr : DisclosureDraft) (hr : DB.getDisclosure st i = some r)
    (hd : r.draft = some dr) :
    (DB.submitDraft st i sAt now snapId).1 =
      DB.updateWhere st i (fun x =>
        { x with history := r.history ++ [⟨snapId, sAt.getD now, dr.document⟩],
                 last_submitted_at := some (sAt.getD now),
                 updated_at := sAt.getD now }) ∧
    (DB.submitDraft st i sAt now snapId).2 = some
      { r with history := r.history ++ [⟨snapId, sAt.getD now, dr.document⟩],
               last_submitted_at := some (sAt.getD now),
               updated_at := sAt.getD now } := by
  have hkey := getDisclosure_updateWhere st i
    (fun x => { x with history := r.history ++ [⟨snapId, sAt.getD now, dr.document⟩],
                       last_submitted_at := some (sAt.getD now),
                       updated_at := sAt.getD now })
    (fun x => rfl)
  rw [hr] at hkey
  simp only [DB.submitDraft, hr, hd]
  refine ⟨trivial, ?_⟩
  rw [hkey]
  simp [hd]

theorem submitDraft_preserves_draft_frame_witness :
    (DB.submitDraft [wRecDraft] 2 none "2025-03-01" "snap2").2 = some
      { wRecDraft with history := wRecDraft.history ++ [⟨"snap2", "2025-03-01", wDoc⟩],
                       last_submitted_at := some "2025-03-01",
                       updated_at := "2025-03-01" } :=
  (submitDraft_preserves_draft_frame [wRecDraft] 2 none "2025-03-01" "snap2"
    wRecDraft wDraft rfl rfl).2

/-- Claim C8: starting from any stored record, `saveDraft` of document `d`
followed by `submitDraft` leaves history untouched at the first step and
then appends exactly one snapshot, whose document is `d`, at the end. -/
theorem saveDraft_submitDraft_appends_one (st : DiscState) (i : Nat)
    (d : DisclosureDocument) (sAt : Option String) (now : String)
    (sAt2 : Option String) (now2 snapId : String) (r : DisclosureRecord)
    (hr : DB.getDisclosure st i = some r) :
    ((DB.saveDraft st i d sAt now).2.map (fun x => x.history) = some r.history) ∧
    ((DB.submitDraft (DB.saveDraft st i d sAt now).1 i sAt2 now2 snapId).2.map
        (fun x => x.history) = some (r.history ++ [⟨snapId, sAt2.getD now2, d⟩])) := by
  have hsave := getDisclosure_updateWhere st i
    (fun x => { x with draft := some ⟨sAt.getD now, d⟩, updated_at := sAt.getD now })
    (fun x => rfl)
  rw [hr] at hsave
  have h1 : DB.getDisclosure (DB.saveDraft st i d sAt now).1 i = some
      { r with draft := some ⟨sAt.getD now, d⟩, updated_at := sAt.getD now } := by
    simp only [DB.saveDraft]
    rw [hsave]
    rfl
  have hsub := getDisclosure_updateWhere (DB.saveDraft st i d sAt now).1 i
    (fun x => { x with history := r.history ++ [⟨snapId, sAt2.getD now2, d⟩],
                       last_submitted_at := some (sAt2.getD now2),
                       updated_at := sAt2.getD now2 })
    (fun x => rfl)
  rw [h1] at hsub
  constructor
  · simp only [DB.saveDraft]
    rw [hsave]
    rfl
  · simp only [DB.submitDraft, h1]
    rw [hsub]
    rfl

theorem saveDraft_submitDraft_appends_one_witness :
    ((DB.saveDraft [wRecNoDraft] 1 wDocEntries none "2025-04-01").2.map
        (fun x => x.history) = some wRecNoDraft.history) ∧
    ((DB.submitDraft (DB.saveDraft [wRecNoDraft] 1 wDocEntries none "2025-04-01").1 1
        none "2025-04-02" "snap3").2.map (fun x => x.history) =
      some (wRecNoDraft.history ++ [⟨"snap3", "2025-04-02", wDocEntries⟩])) :=
  saveDraft_submitDraft_appends_one [wRecNoDraft] 1 wDocEntries none "2025-04-01"
    none "2025-04-02" "snap3" wRecNoDraft rfl

/-- The status derivation as the specification states it, read as an
escalating case chain: `Updated` when history is non-empty and a draft
was saved after the last submission timestamp; else `Submitted` when
history is non-empty; else `Draft` when a draft with content exists;
else `Not Started`. -/
def specStatus (dateGt : String → String → Bool) (row : StatusRow) : String :=
  if !row.history.isEmpty &&
      (match row.draftDoc, row.draftSavedAt, row.lastSubmitted with
       | some _, some savedAt, some lastSub => dateGt savedAt lastSub
       | _, _, _ => false) then "Updated"
  else if !row.history.isEmpty then "Submitted"
  else if (match row.draftDoc with
           | some dd => hasAnyEntry dd
           | none => false) then "Draft"
  else "Not Started"

/-- Claim C9: on every row the application can produce — submitted rows
carry a non-empty `last_submitted_at`, and saved timestamps are non-empty
ISO strings — the status computed by `listUsersWithStatus` is exactly the
specification's derivation. -/
theorem status_derivation_matches_spec (dateGt : String → String → Bool)
    (row : StatusRow) (h1 : row.draftSavedAt ≠ some "")
    (h2 : row.history ≠ [] → ∃ t, row.lastSubmitted = some t ∧ t ≠ "") :
    deriveStatus dateGt row = specStatus dateGt row := by
  obtain ⟨dd, dsa, hist, lsub⟩ := row
  cases hist with
  | cons s ss =>
      obtain ⟨t, ht, htne⟩ := h2 (by simp)
      subst ht
      cases dd with
      | none => simp [deriveStatus, specStatus, truthyStr, htne]
      | some d =>
          cases dsa with
          | none => simp [deriveStatus, specStatus, truthyStr, htne]
          | some sv =>
              have hsv : sv ≠ "" := by simpa using h1
              simp [deriveStatus, specStatus, truthyStr, htne, hsv]
  | nil =>
      cases dd with
      | none => simp [deriveStatus, specStatus]
      | some d => simp [deriveStatus, specStatus]

theorem status_derivation_matches_spec_witness :
    (⟨some wDoc, some "2025-01-02", [⟨"s1", "2025-01-01", wDocEntries⟩],
        some "2025-01-01"⟩ : StatusRow).draftSavedAt ≠ some "" ∧
    deriveStatus (fun a b => decide (b < a))
        ⟨some wDoc, some "2025-01-02", [⟨"s1", "2025-01-01", wDocEntries⟩],
          some "2025-01-01"⟩ =
      specStatus (fun a b => decide (b < a))
        ⟨some wDoc, some "2025-01-02", [⟨"s1", "2025-01-01", wDocEntries⟩],
          some "2025-01-01"⟩ :=
  ⟨by decide, status_derivation_matches_spec (fun a b => decide (b < a))
    ⟨some wDoc, some "2025-01-02", [⟨"s1", "2025-01-01", wDocEntries⟩], some "2025-01-01"⟩
    (by simp) (fun _ => ⟨"2025-01-01", rfl, by simp⟩)⟩

/-! ## Search-layer claims -/

/-- Claim C4: `search` reads only the recognized parameters — `status`,
`_count`, `_page` for every type, plus `url`/`version`/`_id` for
Questionnaire and `subject:identifier`/`questionnaire`/`authored` for
QuestionnaireResponse.  Two parameter sets that agree on the recognized
parameters of the requested type produce identical results (resources,
total, limit and page); unrecognized parameters are never rejected and
never influence the outcome. -/
theorem search_ignores_unrecognized_params (rt : String) (st : FhirState)
    (p q : Params)
    (hstatus : pGet p "status" = pGet q "status")
    (hcount : pGet p "_count" = pGet q "_count")
    (hpage : pGet p "_page" = pGet q "_page")
    (hq : rt = "Questionnaire" →
      pGet p "url" = pGet q "url" ∧ pGet p "version" = pGet q "version" ∧
      pGet p "_id" = pGet q "_id")
    (hqr : rt = "QuestionnaireResponse" →
      pGetAll p "subject:identifier" = pGetAll q "subject:identifier" ∧
      pGet p "questionnaire" = pGet q "questionnaire" ∧
      pGetAll p "authored" = pGetAll q "authored") :
    FHIRStore.search rt st p = FHIRStore.search rt st q := by
  have hkeys : FHIRStore.searchKeys rt p = FHIRStore.searchKeys rt q := by
    unfold FHIRStore.searchKeys
    by_cases h1 : rt = "Questionnaire"
    · obtain ⟨hu, hv, hi⟩ := hq h1
      simp [h1, hstatus, hcount, hpage, hu, hv, hi]
    · by_cases h2 : rt = "QuestionnaireResponse"
      · obtain ⟨hs, hqn, ha⟩ := hqr h2
        simp [h1, h2, hstatus, hcount, hpage, hs, hqn, ha]
      · simp [h1, h2, hstatus, hcount, hpage]
  unfold FHIRStore.search
  rw [hkeys]

def wRows : FhirState :=
  [("a", .obj [("resourceType", .str "QuestionnaireResponse"), ("status", .str "completed")]),
   ("b", .obj [("resourceType", .str "QuestionnaireResponse"), ("status", .str "in-progress")])]

theorem search_ignores_unrecognized_params_witness :
    FHIRStore.search "QuestionnaireResponse" wRows
        [("status", "completed"), ("frobnicate", "1")] =
      FHIRStore.search "QuestionnaireResponse" wRows [("status", "completed")] :=
  search_ignores_unrecognized_params "QuestionnaireResponse" wRows
    [("status", "completed"), ("frobnicate", "1")] [("status", "completed")]
    rfl rfl rfl (fun h => absurd h (by decide)) (fun _ => ⟨rfl, rfl, rfl⟩)

/-- Claim C5: `clampCount` and `clampPage` never reject.  An absent or
empty `_count`, or one whose `Number` conversion is not finite, yields
the default 50; a finite numeric value is floored and clamped into
`[1, 200]`.  An absent or empty `_page`, a non-finite one, or one below
1 yields 1; otherwise the floored value is used. -/
theorem clamp_count_page_spec :
    (FHIRStore.clampCount none = 50) ∧
    (∀ s, jsNumber s = none → FHIRStore.clampCount (some s) = 50) ∧
    (∀ s x, s ≠ "" → jsNumber s = some x →
      1 ≤ FHIRStore.clampCount (some s) ∧ FHIRStore.clampCount (some s) ≤ 200 ∧
      (FHIRStore.clampCount (some s) = ⌊x⌋ ∨
        (⌊x⌋ < 1 ∧ FHIRStore.clampCount (some s) = 1) ∨
        (200 < ⌊x⌋ ∧ FHIRStore.clampCount (some s) = 200))) ∧
    (FHIRStore.clampPage none = 1) ∧
    (∀ s, jsNumber s = none → FHIRStore.clampPage (some s) = 1) ∧
    (∀ s x, s ≠ "" → jsNumber s = some x → x < 1 → FHIRStore.clampPage (some s) = 1) ∧
    (∀ s x, s ≠ "" → jsNumber s = some x → 1 ≤ x → FHIRStore.clampPage (some s) = ⌊x⌋) := by
  refine ⟨rfl, ?_, ?_, rfl, ?_, ?_, ?_⟩
  · intro s h
    by_cases hs : s = ""
    · rw [hs] at h
      exact absurd h (by decide)
    · simp [FHIRStore.clampCount, hs, h]
  · intro s x hs h
    have hcc : FHIRStore.clampCount (some s) = min (max 1 ⌊x⌋) 200 := by
      simp [FHIRStore.clampCount, hs, h]
    rw [hcc]
    refine ⟨by omega, by omega, ?_⟩
    omega
  · intro s h
    by_cases hs : s = ""
    · rw [hs] at h
      exact absurd h (by decide)
    · simp [FHIRStore.clampPage, hs, h]
  · intro s x hs h hx
    simp [FHIRStore.clampPage, hs, h, hx]
  · intro s x hs h hx
    have hnx : ¬ x < 1 := not_lt.mpr hx
    simp [FHIRStore.clampPage, hs, h, hnx]

theorem clamp_count_page_spec_witness :
    FHIRStore.clampCount none = 50 ∧
    FHIRStore.clampCount (some "abc") = 50 ∧
    FHIRStore.clampCount (some "0") = 1 ∧
    FHIRStore.clampCount (some "99999") = 200 ∧
    FHIRStore.clampPage (some "0.5") = 1 ∧
    FHIRStore.clampPage (some "3.9") = 3 := by
  have h := clamp_count_page_spec
  refine ⟨h.1, h.2.1 "abc"
    (by simp [jsNumber, jsDecimalCore, natOfDigits, baseDigit, isJsSpace]), ?_, ?_, ?_, ?_⟩
  · rcases h.2.2.1 "0" 0 (by decide)
        (by simp [jsNumber, jsDecimalCore, natOfDigits, baseDigit, isJsSpace]) with
      ⟨ha, -, h0 | h0 | h0⟩
    · rw [h0, Int.floor_zero] at ha
      exact absurd ha (by norm_num)
    · exact h0.2
    · exact absurd h0.1 (by norm_num)
  · rcases h.2.2.1 "99999" 99999 (by decide)
        (by simp [jsNumber, jsDecimalCore, natOfDigits, baseDigit, isJsSpace]) with
      ⟨-, hb, h0 | h0 | h0⟩
    · rw [h0] at hb
      norm_num at hb
    · norm_num at h0
    · exact h0.2
  · exact h.2.2.2.2.2.1 "0.5" (1/2 : ℚ) (by decide)
      (by simp [jsNumber, jsDecimalCore, natOfDigits, baseDigit, isJsSpace]; norm_num)
      (by norm_num)
  · rw [h.2.2.2.2.2.2 "3.9" (39/10 : ℚ) (by decide)
      (by simp [jsNumber, jsDecimalCore, natOfDigits, baseDigit, isJsSpace]; norm_num)
      (by norm_num)]
    rw [Int.floor_eq_iff]
    norm_num

/-! ## PUT semantics: supporting lemmas -/

theorem resourceTypeMatches_obj (body : JSON) (t : String)
    (h : resourceTypeMatches body t = true) : ∃ fs, body = .obj fs := by
  cases body with
  | obj fs => exact ⟨fs, rfl⟩
  | null => simp [resourceTypeMatches, JSON.getProp] at h
  | bool b => simp [resourceTypeMatches, JSON.getProp] at h
  | num n => simp [resourceTypeMatches, JSON.getProp] at h
  | str s => simp [resourceTypeMatches, JSON.getProp] at h
  | arr xs => simp [resourceTypeMatches, JSON.getProp] at h

theorem enforce_fst_obj (fs : List (String × JSON)) (auth : AuthToken) :
    ∃ gs, (enforceQuestionnaireResponseInvariants (.obj fs) auth).1 = .obj gs := by
  unfold enforceQuestionnaireResponseInvariants
  simp only [JSON.getProp]
  cases hsub : JSON.getKey fs "subject" with
  | none => exact ⟨_, rfl⟩
  | some v =>
      by_cases hv : v.isObjectType = true
      · simp only [hsub]
        rw [if_pos hv]
        exact ⟨_, rfl⟩
      · simp only [hsub]
        rw [if_neg hv]
        exact ⟨_, rfl⟩

/-- The validation outcome of the invariant enforcement depends only on
the body's own `questionnaire` and `status` fields (the enforcement only
rewrites `subject`). -/
theorem enforce_snd (fs : List (String × JSON)) (auth : AuthToken) :
    (enforceQuestionnaireResponseInvariants (.obj fs) auth).2 =
      (if ¬ JSON.truthyOpt (JSON.getKey fs "questionnaire") then
        some "QuestionnaireResponse.questionnaire is required"
      else if ¬ JSON.truthyOpt (JSON.getKey fs "status") then
        some "QuestionnaireResponse.status is required"
      else none) := by
  unfold enforceQuestionnaireResponseInvariants
  simp only [JSON.getProp]
  cases hsub : JSON.getKey fs "subject" with
  | none =>
      simp only [JSON.setProp, JSON.getProp]
      rw [JSON.getKey_setKey_ne _ _ _ _ (by decide),
        JSON.getKey_setKey_ne _ _ _ _ (by decide),
        JSON.getKey_setKey_ne _ _ _ _ (by decide),
        JSON.getKey_setKey_ne _ _ _ _ (by decide)]
  | some v =>
      by_cases hv : v.isObjectType = true
      · simp only [hsub]
        rw [if_pos hv]
        simp only [JSON.setProp, JSON.getProp]
        rw [JSON.getKey_setKey_ne _ _ _ _ (by decide),
          JSON.getKey_setKey_ne _ _ _ _ (by decide)]
      · simp only [hsub]
        rw [if_neg hv]
        simp only [JSON.setProp, JSON.getProp]
        rw [JSON.getKey_setKey_ne _ _ _ _ (by decide),
          JSON.getKey_setKey_ne _ _ _ _ (by decide),
          JSON.getKey_setKey_ne _ _ _ _ (by decide),
          JSON.getKey_setKey_ne _ _ _ _ (by decide)]

/-- After `replace` of an object resource, `get` with the path type and
id returns exactly the stored payload. -/
theorem get_after_replace (st : FhirState) (t i : String)
    (fs : List (String × JSON)) :
    FHIRStore.get (FHIRStore.replace st t i (.obj fs)).1 t i =
      some (FHIRStore.replace st t i (.obj fs)).2.1 := by
  unfold FHIRStore.replace FHIRStore.get
  have hrt : JSON.getKey (JSON.setKey (JSON.setKey fs "resourceType" (.str t)) "id"
      (.str i)) "resourceType" = some (.str t) := by
    rw [JSON.getKey_setKey_ne _ _ _ _ (by decide), JSON.getKey_setKey_self]
  by_cases hex : FHIRStore.existsId st i
  · simp only [hex, if_true, JSON.setProp]
    rw [FHIRStore.lookupId_overwrite st i _ hex]
    simp [JSON.getProp, hrt]
  · rw [Bool.not_eq_true] at hex
    simp only [hex, Bool.false_eq_true, if_false, JSON.setProp]
    rw [FHIRStore.lookupId_append_of_not_exists st i _ hex]
    simp [JSON.getProp, hrt]

/-- Claim C2, amended: for every `PUT /fhir/{type}/{id}` that is accepted
(response 200 or 201), an immediately following `GET /fhir/{type}/{id}`
returns 200 with exactly the resource the `PUT` returned — which is the
request body with `resourceType` and `id` overwritten from the path (and,
for QuestionnaireResponse, `subject` rewritten server-side before
storage).  Stored and returned values being equal, their JSON
serializations (the response bytes) are equal as well. -/
theorem put_then_get_returns_put_response (auth : AuthToken) (st : FhirState)
    (t i : String) (body : JSON)
    (h : (putFhir auth st t i body).2.status = 200 ∨
      (putFhir auth st t i body).2.status = 201) :
    getFhir (putFhir auth st t i body).1 t i =
      ⟨200, (putFhir auth st t i body).2.body⟩ := by
  by_cases hall : t ∈ allowedResourceTypes
  case neg =>
    simp [putFhir, hall] at h
  case pos =>
  by_cases hobj : body.isObjectType = true
  case neg =>
    rw [Bool.not_eq_true] at hobj
    simp [putFhir, hall, hobj] at h
  case pos =>
  by_cases hmatch : resourceTypeMatches body t = true
  case neg =>
    rw [Bool.not_eq_true] at hmatch
    simp [putFhir, hall, hobj, hmatch] at h
  case pos =>
  obtain ⟨fs, rfl⟩ := resourceTypeMatches_obj body t hmatch
  have hchecked : ∃ gs,
      (if t = "QuestionnaireResponse" then
        enforceQuestionnaireResponseInvariants (.obj fs) auth
      else ((.obj fs : JSON), (none : Option String))).1 = .obj gs := by
    by_cases ht : t = "QuestionnaireResponse"
    · rw [if_pos ht]
      exact enforce_fst_obj fs auth
    · rw [if_neg ht]
      exact ⟨fs, rfl⟩
  obtain ⟨gs, hgs⟩ := hchecked
  rcases herr : (if t = "QuestionnaireResponse" then
      enforceQuestionnaireResponseInvariants (.obj fs) auth
    else ((.obj fs : JSON), (none : Option String))).2 with _ | e
  case some =>
    simp [putFhir, hall, hobj, hmatch, herr] at h
  case none =>
    have hput : putFhir auth st t i (.obj fs) =
        (let result := FHIRStore.replace st t i (.obj gs)
         if result.2.2 then (result.1, ⟨201, some result.2.1⟩)
         else (result.1, ⟨200, some result.2.1⟩)) := by
      simp only [putFhir, hobj, hmatch, herr, hgs]
      simp [hall]
    rw [hput]
    have hget := get_after_replace st t i gs
    by_cases hrep : (FHIRStore.replace st t i (.obj gs)).2.2 = true
    · simp only [hrep, if_true]
      simp [getFhir, hall, hget]
    · rw [Bool.not_eq_true] at hrep
      simp only [hrep, Bool.false_eq_true, if_false]
      simp [getFhir, hall, hget]

theorem put_then_get_returns_put_response_witness :
    (putFhir cAuth [] "Questionnaire" "q1" c2Body).2.status = 201 ∧
    getFhir (putFhir cAuth [] "Questionnaire" "q1" c2Body).1 "Questionnaire" "q1" =
      ⟨200, (putFhir cAuth [] "Questionnaire" "q1" c2Body).2.body⟩ :=
  ⟨rfl, put_then_get_returns_put_response cAuth [] "Questionnaire" "q1" c2Body (Or.inr rfl)⟩

/-- The amended claim's validity condition for a QuestionnaireResponse
write: the body carries truthy `questionnaire` and `status` fields. -/
def qrBodyValid (body : JSON) : Bool :=
  JSON.truthyOpt (JSON.getProp body "questionnaire") &&
    JSON.truthyOpt (JSON.getProp body "status")

/-- The payload a successful `PUT` stores: the body — after invariant
enforcement when the type is QuestionnaireResponse — with `resourceType`
and `id` overwritten from the path. -/
def putPayload (auth : AuthToken) (t i : String) (body : JSON) : JSON :=
  JSON.setProp (JSON.setProp
    (if t = "QuestionnaireResponse" then
      (enforceQuestionnaireResponseInvariants body auth).1
    else body) "resourceType" (.str t)) "id" (.str i)

/-- Claim C3, amended: for every allowed type and id, a `PUT` whose body's
`resourceType` differs from the path type returns 400 with the store
unchanged; a QuestionnaireResponse body that lacks a truthy
`questionnaire` or `status` also returns 400 with the store unchanged;
otherwise, when no resource with that id exists the `PUT` appends the
payload and signals creation (201), and when one exists it overwrites
that row in place and signals update (200). -/
theorem put_semantics_amended (auth : AuthToken) (st : FhirState) (t i : String)
    (body : JSON) (ht : t ∈ allowedResourceTypes) :
    (resourceTypeMatches body t = false →
      (putFhir auth st t i body).2.status = 400 ∧ (putFhir auth st t i body).1 = st) ∧
    (resourceTypeMatches body t = true → t = "QuestionnaireResponse" →
      qrBodyValid body = false →
      (putFhir auth st t i body).2.status = 400 ∧ (putFhir auth st t i body).1 = st) ∧
    (resourceTypeMatches body t = true →
      (t = "QuestionnaireResponse" → qrBodyValid body = true) →
      (FHIRStore.existsId st i = false →
        (putFhir auth st t i body).2.status = 201 ∧
        (putFhir auth st t i body).1 = st ++ [(i, putPayload auth t i body)]) ∧
      (FHIRStore.existsId st i = true →
        (putFhir auth st t i body).2.status = 200 ∧
        (putFhir auth st t i body).1 =
          st.map (fun r => if r.1 = i then (r.1, putPayload auth t i body) else r))) := by
  refine ⟨?_, ?_, ?_⟩
  · intro hm
    by_cases hobj : body.isObjectType = true
    · simp [putFhir, ht, hobj, hm]
    · rw [Bool.not_eq_true] at hobj
      simp [putFhir, ht, hobj]
  · intro hm htq hq
    subst htq
    obtain ⟨fs, rfl⟩ := resourceTypeMatches_obj _ _ hm
    have herr : ∃ e, (enforceQuestionnaireResponseInvariants (.obj fs) auth).2 = some e := by
      rw [enforce_snd]
      have hq' : JSON.truthyOpt (JSON.getKey fs "questionnaire") = false ∨
          JSON.truthyOpt (JSON.getKey fs "status") = false := by
        by_cases h1 : JSON.truthyOpt (JSON.getKey fs "questionnaire") = true
        · by_cases h2 : JSON.truthyOpt (JSON.getKey fs "status") = true
          · exfalso
            simp [qrBodyValid, JSON.getProp, h1, h2] at hq
          · rw [Bool.not_eq_true] at h2
            exact Or.inr h2
        · rw [Bool.not_eq_true] at h1
          exact Or.inl h1
      rcases hq' with h0 | h0
      · simp [h0]
      · by_cases h1 : JSON.truthyOpt (JSON.getKey fs "questionnaire") = true
        · simp [h0, h1]
        · rw [Bool.not_eq_true] at h1
          simp [h0, h1]
    obtain ⟨e, herr⟩ := herr
    simp [putFhir, ht, hm, herr]
  · intro hm hvalid
    obtain ⟨fs, rfl⟩ := resourceTypeMatches_obj _ _ hm
    by_cases htq : t = "QuestionnaireResponse"
    · subst htq
      have herr2 : (enforceQuestionnaireResponseInvariants (.obj fs) auth).2 = none := by
        rw [enforce_snd]
        have hv := hvalid rfl
        simp only [qrBodyValid, JSON.getProp, Bool.and_eq_true] at hv
        simp [hv.1, hv.2]
      constructor <;> intro hex <;>
        simp [putFhir, ht, hm, herr2, FHIRStore.replace, hex, putPayload,
          JSON.isObjectType]
    · constructor <;> intro hex <;>
        simp [putFhir, ht, hm, FHIRStore.replace, hex, putPayload, htq,
          JSON.isObjectType]

theorem put_semantics_amended_witness :
    (putFhir cAuth [] "QuestionnaireResponse" "r1" c3Body).2.status = 400 ∧
    (putFhir cAuth [] "QuestionnaireResponse" "r1" c3Body).1 = [] :=
  (put_semantics_amended cAuth [] "QuestionnaireResponse" "r1" c3Body
    (by simp [allowedResourceTypes])).2.1 rfl rfl rfl

/-! ## The questionnaire filter (claim C6) -/

theorem likeChars_percent_nil (s : List Char) : likeChars ['%'] s = true := by
  simp only [likeChars]
  rw [if_pos trivial, List.any_eq_true]
  exact ⟨s.length, by simp [List.mem_range], by simp [List.drop_length]⟩

/-- A `LIKE` pattern that is a literal text followed by a single trailing
`%` matches exactly the strings whose ASCII-lowercased form begins with
the lowercased literal. -/
theorem likeChars_literal (p : List Char) (hp : ∀ c ∈ p, c ≠ '%' ∧ c ≠ '_') :
    ∀ s, likeChars (p ++ ['%']) s =
      (p.map lowerAscii).isPrefixOf (s.map lowerAscii) := by
  induction p with
  | nil =>
      intro s
      simp [likeChars_percent_nil]
  | cons c p ih =>
      intro s
      have hc := hp c (List.mem_cons_self c p)
      cases s with
      | nil =>
          simp [likeChars, hc.1, hc.2, List.isPrefixOf]
      | cons c' s =>
          have ihs := ih (fun d hd => hp d (List.mem_cons_of_mem _ hd)) s
          simp only [List.cons_append, likeChars, if_neg hc.1, if_neg hc.2,
            List.map_cons, List.isPrefixOf, List.append_eq]
          rw [ihs]
          by_cases hcc : lowerAscii c = lowerAscii c'
          · simp [hcc]
          · simp [hcc]

/-- Claim C6, counterexample: with the unversioned parameter
`q = "https://ex/q"`, a stored response whose questionnaire field is
`"HTTPS://EX/Q|1"` matches the filter (SQLite `LIKE` is ASCII-case-
insensitive), although that field neither equals `q` nor begins with
`q` followed by `"|"`. -/
theorem questionnaire_filter_case_insensitive_cex :
    FHIRStore.questionnaireClause
        (.obj [("questionnaire", .str "HTTPS://EX/Q|1")]) "https://ex/q" = true ∧
    FHIRStore.jsIncludes "https://ex/q" '|' = false ∧
    ("HTTPS://EX/Q|1" : String) ≠ "https://ex/q" ∧
    ("https://ex/q" ++ "|").data.isPrefixOf ("HTTPS://EX/Q|1").data = false :=
  ⟨rfl, rfl, by decide, by decide⟩

/-- Claim C6, amended: the `questionnaire` filter (applied by `search`
exactly when the parameter is non-empty) on a response whose
questionnaire field is the string `field`: a versioned `q` (containing
`|`) matches exactly on equality; an unversioned `q` free of the `LIKE`
wildcards `%` and `_` matches exactly when `field` equals `q` or begins,
ASCII-case-insensitively, with `q` followed by `|`. -/
theorem questionnaire_filter_amended (q : String) (r : JSON) (field : String)
    (hq : q ≠ "")
    (hfield : JSON.getPath r ["questionnaire"] = some (.str field)) :
    FHIRStore.optClause (some q) (FHIRStore.questionnaireClause r) =
      FHIRStore.questionnaireClause r q ∧
    (FHIRStore.jsIncludes q '|' = true →
      (FHIRStore.questionnaireClause r q = true ↔ field = q)) ∧
    (FHIRStore.jsIncludes q '|' = false → FHIRStore.jsIncludes q '%' = false →
      FHIRStore.jsIncludes q '_' = false →
      (FHIRStore.questionnaireClause r q = true ↔
        (field = q ∨
          ((q ++ "|").data.map lowerAscii).isPrefixOf
            (field.data.map lowerAscii) = true))) := by
  have hext : FHIRStore.extract r ["questionnaire"] = .text field := by
    simp [FHIRStore.extract, hfield, sqlOfExtract]
  refine ⟨by simp [FHIRStore.optClause, hq], ?_, ?_⟩
  · intro hbar
    simp [FHIRStore.questionnaireClause, hbar, hext, sqlEqText]
  · intro hbar hpct hund
    have hdata : (q ++ "|%").data = (q.data ++ ['|']) ++ ['%'] := by
      rw [String.data_append]
      simp
    have hdata2 : (q ++ "|").data = q.data ++ ['|'] := by
      rw [String.data_append]
    have hp : ∀ c ∈ q.data ++ ['|'], c ≠ '%' ∧ c ≠ '_' := by
      intro c hcmem
      rcases List.mem_append.mp hcmem with hcq | hcb
      · constructor
        · intro hcis
          subst hcis
          simp [FHIRStore.jsIncludes] at hpct
          exact hpct hcq
        · intro hcis
          subst hcis
          simp [FHIRStore.jsIncludes] at hund
          exact hund hcq
      · have : c = '|' := by simpa using hcb
        subst this
        exact ⟨by decide, by decide⟩
    simp only [FHIRStore.questionnaireClause, hbar, Bool.false_eq_true, if_false,
      hext, sqlEqText, sqlLikeText, likeMatch, hdata, hdata2]
    rw [likeChars_literal _ hp]
    by_cases heq : field = q
    · simp [heq]
    · simp [heq]

theorem questionnaire_filter_amended_witness :
    FHIRStore.questionnaireClause (.obj [("questionnaire", .str "https://ex/q|2")])
        "https://ex/q" = true ↔
      ("https://ex/q|2" = "https://ex/q" ∨
        (("https://ex/q" ++ "|").data.map lowerAscii).isPrefixOf
          (("https://ex/q|2" : String).data.map lowerAscii) = true) :=
  (questionnaire_filter_amended "https://ex/q"
    (.obj [("questionnaire", .str "https://ex/q|2")]) "https://ex/q|2"
    (by decide) rfl).2.2 rfl rfl rfl
